import Mathlib

/-!
Shallow embedding of the data-normalization, caching and statistical
aggregation pipeline of `mcp-kr-realestate`
(`tools/analysis_tools.py`, `tools/transaction_tools.py`,
`apis/officetel_rent.py`), together with proofs about the claims of the
specification.

Python floats are modelled by `ℚ` (every value the pipeline manipulates is
produced by parsing a finite decimal string and by field operations, all of
which are exact on the inputs considered here); a pandas missing value
(NaN / None) is modelled by `Option.none`.  A pandas cell is therefore an
`Option String` (`none` = NaN / absent key), and a numeric series entry an
`Option ℚ`.
-/

namespace KrRealEstate

/-- A pandas cell: a string value, or NaN / None. -/
abbrev Cell := Option String

/-- ASCII whitespace stripped by Python `str.strip()` / `float(...)`
(the pipeline only ever meets spaces and line breaks). -/
def isSpaceChar (c : Char) : Bool :=
  c == ' ' || c == '\t' || c == '\n' || c == '\r'

/-- Strip leading and trailing whitespace, as Python `str.strip()`. -/
def trimChars (cs : List Char) : List Char :=
  ((cs.dropWhile isSpaceChar).reverse.dropWhile isSpaceChar).reverse

/-- Model of `str.replace(',', '')`: remove every comma (thousands separators). -/
def stripCommas (cs : List Char) : List Char :=
  cs.filter (fun c => c ≠ ',')

/-- Value of a list of decimal digit characters. -/
def digitsToNat (cs : List Char) : ℕ :=
  cs.foldl (fun n c => 10 * n + (c.toNat - 48)) 0

/-- Parse an unsigned decimal literal `digits [ '.' digits ]` (at least one
digit in total), the fragment of Python's float grammar the upstream data
exercises (no exponents, no `inf`/`nan` literals — those would in any case
either fail or be treated as missing downstream). -/
def parseDecimal (cs : List Char) : Option ℚ :=
  let intPart := cs.takeWhile Char.isDigit
  let rest := cs.dropWhile Char.isDigit
  match rest with
  | [] => if intPart.isEmpty then none else some (digitsToNat intPart : ℚ)
  | '.' :: frac =>
    if frac.all Char.isDigit then
      if intPart.isEmpty && frac.isEmpty then none
      else some ((digitsToNat intPart : ℚ) + (digitsToNat frac : ℚ) / (10 : ℚ) ^ frac.length)
    else none
  | _ => none

/-- Python `float(s)` on a decimal string: strip whitespace, optional sign,
then an unsigned decimal literal; `none` models a `ValueError` (and a parse
to NaN, which downstream `pd.isna` treats the same way). -/
def parseFloat? (cs : List Char) : Option ℚ :=
  match trimChars cs with
  | '-' :: rest => (parseDecimal rest).map Neg.neg
  | '+' :: rest => parseDecimal rest
  | rest => parseDecimal rest

/-- Python `str(x)` on a cell: `str(None) = "None"` (a NaN cell stringifies
to `"nan"`; both are unparseable, `"None"` stands for either). -/
def pyStr (c : Cell) : String :=
  match c with
  | none => "None"
  | some s => s

/-- Embedding of `to_numeric` of `tools/analysis_tools.py` applied to one cell:
`pd.to_numeric(series.astype(str).str.replace(',', ''), errors='coerce')`
— stringify, drop commas, parse; unparseable becomes NaN (`none`). -/
def toNumericCell (c : Cell) : Option ℚ :=
  parseFloat? (stripCommas (pyStr c).toList)

/-- Embedding of `to_num` of `apis/officetel_rent.py`:
`float(str(s).replace(',', '').strip() or 0)` under `try`, returning `0.0`
on `ValueError`/`TypeError`.  The empty string is falsy, so `'' or 0`
yields `0`; a failed parse is caught and also yields `0.0`. -/
def to_num (s : Cell) : ℚ :=
  let t := trimChars (stripCommas (pyStr s).toList)
  if t.isEmpty then 0
  else match parseFloat? t with
    | some q => q
    | none => 0

/-! ### DataFrame model

A DataFrame (as produced by `pd.read_json(p, lines=True)` or
`pd.DataFrame(records)`) is a list of rows; a row is an association list
from column name to cell.  `columns` is the union of the rows' keys in
first-appearance order, as pandas builds it from a list of dicts. -/

/-- One flattened record: an association list from field name to cell. -/
abbrev Row := List (String × Cell)

/-- A pandas DataFrame built from a list of flat records. -/
structure DataFrame where
  rows : List Row
deriving DecidableEq

/-- Append a column name if it is not present yet (pandas keeps
first-appearance order when building columns from record dicts). -/
def addCol (cols : List String) (c : String) : List String :=
  if c ∈ cols then cols else cols ++ [c]

/-- Model of `df.columns`: union of the rows' keys in first-appearance order. -/
def DataFrame.columns (df : DataFrame) : List String :=
  df.rows.foldl (fun cols r => r.foldl (fun cs kv => addCol cs kv.1) cols) []

/-- Column access `df[c]` as a list of cells, one per row; a row lacking the key holds
NaN there. -/
def getColumn (df : DataFrame) (c : String) : List Cell :=
  df.rows.map (fun r => (r.lookup c).join)

/-- Embedding of `get_col_from_df` of `tools/analysis_tools.py`: walk the candidate
names in order, return the first column present; if none is present,
return a series of `None` of the frame's length (so downstream arithmetic
never throws). -/
def get_col_from_df (df : DataFrame) : List String → List Cell
  | [] => df.rows.map (fun _ => none)
  | c :: rest => if c ∈ df.columns then getColumn df c else get_col_from_df df rest

/-- The column name `get_col_from_df` resolves to, if any (the first
candidate present among `df.columns`). -/
def chosenCol (df : DataFrame) : List String → Option String
  | [] => none
  | c :: rest => if c ∈ df.columns then some c else chosenCol df rest

/-- The cell `get_col_from_df` yields for one given row. -/
def resolvedCell (df : DataFrame) (names : List String) (r : Row) : Cell :=
  match chosenCol df names with
  | some c => (r.lookup c).join
  | none => none

/-! ### Unit-tagged formatter -/

/-- Python 3 `round` to zero digits: round half to even. -/
def pyRound (q : ℚ) : ℤ :=
  let n := ⌊q⌋
  let f := q - (n : ℚ)
  if f < 1 / 2 then n
  else if 1 / 2 < f then n + 1
  else if Even n then n else n + 1

/-- A `{value, unit}` pair as emitted by the formatter. -/
structure ValueUnit where
  value : ℚ
  unit : String
deriving DecidableEq

/-- Embedding of `as_value_unit` of `tools/analysis_tools.py`.  NaN/None (`none`)
formats to `null`.  Unit `"만원"` (resp. `"만원/평"`) rescales ×10000 to
`"원"` (resp. `"원/평"`) — with no rounding.  Any other unit keeps the
value, rounded to an integer when `precision = 0` (the `isinstance(int)`
branch of the source returns the integer unchanged, which coincides with
rounding an integral value, so it is folded into the same clause). -/
def as_value_unit (value : Option ℚ) (unit_str : String) (precision : ℕ := 0) :
    Option ValueUnit :=
  match value with
  | none => none
  | some q =>
    if unit_str = "만원" then some ⟨q * 10000, "원"⟩
    else if unit_str = "만원/평" then some ⟨q * 10000, "원/평"⟩
    else if precision = 0 then some ⟨(pyRound q : ℚ), unit_str⟩
    else some ⟨q, unit_str⟩

/-! ### Summary-cache path -/

/-- Embedding of `get_summary_cache_path` of `tools/analysis_tools.py`, reduced to the
pure path computation: the cache directory is `p.parent.parent / "cache"`
(passed here as `cacheDir`), and the file name is a function of the source
stem and the `(property_type, trade_type)` discriminator.  Commercial,
land and industrial collapse trade/rent into one artifact.  The source
guards the tagged name with Python truthiness (`if trade_type:`), which
holds only for a trade type that is both non-None and non-empty — an
empty-string trade type falls through to the untagged name. -/
def get_summary_cache_path (cacheDir stem : String)
    (property_type : Option String := none) (trade_type : Option String := none) :
    String :=
  if property_type = some "commercial" ∨ property_type = some "land" ∨
      property_type = some "industrial" then
    cacheDir ++ "/" ++ stem ++ "_summary.json"
  else
    match trade_type with
    | some t =>
      if t = "" then cacheDir ++ "/" ++ stem ++ "_summary.json"
      else cacheDir ++ "/" ++ stem ++ "_" ++ t ++ "_summary.json"
    | none => cacheDir ++ "/" ++ stem ++ "_summary.json"

/-! ### Cleaning step of the `analyze_*_data` functions

Each analyzer resolves its numeric columns with `get_col_from_df`, coerces
them with `to_numeric`, drops rows where a required column is NaN
(`df.dropna(subset=[...])`) and keeps rows with area `> 0`
(`df = df[df['전용면적_num'] > 0]`). -/

/-- A resolved numeric series: `to_numeric(get_col_from_df(df, *names))`. -/
def numericSeries (df : DataFrame) (names : List String) : List (Option ℚ) :=
  (get_col_from_df df names).map toNumericCell

/-- Price candidates of `analyze_apartment_trade_data`. -/
def aptTradePriceCols : List String := ["거래금액", "dealAmount"]

/-- Area candidates of `analyze_apartment_trade_data`. -/
def aptTradeAreaCols : List String := ["전용면적", "area", "excluUseAr"]

/-- Price candidates of `analyze_commercial_property_data`. -/
def commercialPriceCols : List String := ["거래금액", "dealAmount"]

/-- Area candidates of `analyze_commercial_property_data`. -/
def commercialAreaCols : List String := ["전용면적", "area", "excluUseAr", "buildingAr"]

/-- Deposit candidates of `analyze_apartment_rent_data`. -/
def rentDepositCols : List String := ["보증금액", "보증금", "deposit", "depositNum"]

/-- Monthly-rent candidates of `analyze_apartment_rent_data`. -/
def rentMonthlyCols : List String := ["월세액", "월세", "monthlyRent", "rentFeeNum"]

/-- Area candidates of `analyze_apartment_rent_data`. -/
def rentAreaCols : List String := ["전용면적", "area", "excluUseAr", "areaNum"]

/-- The cleaning step of the trade analyzers: each surviving row is paired
with its parsed price and area; a row whose price or area is NaN, or whose
area is not `> 0`, is dropped. -/
def cleanRecords (df : DataFrame) (priceNames areaNames : List String) :
    List (Row × ℚ × ℚ) :=
  (df.rows.zip ((numericSeries df priceNames).zip (numericSeries df areaNames))).filterMap
    (fun x =>
      match x with
      | (r, some p, some a) => if 0 < a then some (r, p, a) else none
      | _ => none)

/-- The cleaning step of `analyze_apartment_rent_data`: each surviving row
is paired with its parsed deposit, monthly rent and area; rows with a NaN
deposit, rent or area, or area not `> 0`, are dropped. -/
def cleanRentRecords (df : DataFrame) : List (Row × ℚ × ℚ × ℚ) :=
  (df.rows.zip ((numericSeries df rentDepositCols).zip
      ((numericSeries df rentMonthlyCols).zip (numericSeries df rentAreaCols)))).filterMap
    (fun x =>
      match x with
      | (r, some d, some m, some a) => if 0 < a then some (r, d, m, a) else none
      | _ => none)

/-- Filter `df_jeonse = df[df['월세_num'] == 0]`: pure-deposit leases. -/
def jeonseRecords (cleaned : List (Row × ℚ × ℚ × ℚ)) : List (Row × ℚ × ℚ × ℚ) :=
  cleaned.filter (fun e => e.2.2.1 = 0)

/-- Filter `df_wolse = df[df['월세_num'] > 0]`: deposit-plus-monthly leases. -/
def wolseRecords (cleaned : List (Row × ℚ × ℚ × ℚ)) : List (Row × ℚ × ℚ × ℚ) :=
  cleaned.filter (fun e => 0 < e.2.2.1)

/-! ### Aggregation results -/

/-- Largest element of a price list (pandas `max`; only used non-empty). -/
def listMax : List ℚ → ℚ
  | [] => 0
  | x :: xs => xs.foldl max x

/-- Smallest element of a price list (pandas `min`; only used non-empty). -/
def listMin : List ℚ → ℚ
  | [] => 0
  | x :: xs => xs.foldl min x

/-- Insert a price into an already sorted list. -/
def insertSorted (x : ℚ) : List ℚ → List ℚ
  | [] => [x]
  | y :: ys => if x ≤ y then x :: y :: ys else y :: insertSorted x ys

/-- Sort a price list ascending (insertion sort; any stable ascending sort
models the sort pandas performs for its `median`). -/
def sortRats (l : List ℚ) : List ℚ :=
  l.foldr insertSorted []

/-- pandas `median`: middle of the sorted list, or the mean of the two
middle elements at even length. -/
def listMedian (l : List ℚ) : ℚ :=
  let s := sortRats l
  let n := s.length
  if n = 0 then 0
  else if n % 2 = 1 then s.getD (n / 2) 0
  else (s.getD (n / 2 - 1) 0 + s.getD (n / 2) 0) / 2

/-- Overall price statistics of `analyze_apartment_trade_data`
(`len(df)`, `sum`, and `agg(['mean','median','max','min'])`). -/
structure TradeStats where
  totalTransactionCount : ℕ
  totalTransactionValue : ℚ
  meanPrice : ℚ
  medianPrice : ℚ
  maxPrice : ℚ
  minPrice : ℚ
deriving DecidableEq

/-- Result of a trade analyzer: the explicit error object
(`{"error": msg}`) or a statistics object. -/
inductive AnalysisResult where
  | error (msg : String)
  | ok (stats : TradeStats)
deriving DecidableEq

/-- Embedding of `analyze_apartment_trade_data`, up to the price-level statistics it
computes on the cleaned frame (the grouped sections reuse the same cleaned
rows and the same mean/median/max/min aggregators per group). -/
def analyzeApartmentTradeData (df : DataFrame) : AnalysisResult :=
  if df.rows.isEmpty then .error "No data to analyze."
  else
    let cleaned := cleanRecords df aptTradePriceCols aptTradeAreaCols
    if cleaned.isEmpty then .error "No valid transaction data after cleaning."
    else
      let prices := cleaned.map (fun e => e.2.1)
      .ok
        { totalTransactionCount := cleaned.length
          totalTransactionValue := prices.sum
          meanPrice := prices.sum / (cleaned.length : ℚ)
          medianPrice := listMedian prices
          maxPrice := listMax prices
          minPrice := listMin prices }

/-- The `transactionTypeDistribution` object of
`analyze_apartment_rent_data`: the jeonse/wolse record counts. -/
structure RentSummary where
  jeonseCount : ℕ
  wolseCount : ℕ
deriving DecidableEq

/-- Result of `analyze_apartment_rent_data`: the explicit error object or
the jeonse/wolse partition summary (the per-type deposit statistics reuse
the same aggregators as the trade analyzers on each partition). -/
inductive RentResult where
  | error (msg : String)
  | ok (s : RentSummary)
deriving DecidableEq

/-- Embedding of `analyze_apartment_rent_data`, up to the partition counts. -/
def analyzeApartmentRentData (df : DataFrame) : RentResult :=
  if df.rows.isEmpty then .error "No data to analyze."
  else
    let cleaned := cleanRentRecords df
    if cleaned.isEmpty then .error "No valid transaction data after cleaning."
    else .ok ⟨(jeonseRecords cleaned).length, (wolseRecords cleaned).length⟩

/-! ### Pagination loops

The page-collection loops of `get_nrg_trade_data`
(`tools/transaction_tools.py`) and `get_officetel_rent_data`
(`apis/officetel_rent.py`).  The upstream is abstracted as a function
`pages : ℕ → List α` from page number to the items that page returns; the
reported total count is parsed once on page 1.  The Python `while True`
loop is embedded with explicit fuel: `none` means the fuel ran out before
the loop broke, so `isSome` at fuel `n` states that the loop terminates
within `n` iterations. -/

/-- Parse of the reported `totalCount` in `get_nrg_trade_data`: absent or
blank text gives 0, and an `int(...)` failure is caught and gives 0 (a
negative count would behave exactly like 0 in the loop's comparison, so it
is clamped to 0 here). -/
def parseTotalCount (tc : Option String) : ℕ :=
  match tc with
  | none => 0
  | some s =>
    let t := trimChars s.toList
    if t.isEmpty then 0
    else
      match t with
      | '-' :: _ => 0
      | '+' :: rest => if rest ≠ [] ∧ rest.all Char.isDigit then digitsToNat rest else 0
      | _ => if t.all Char.isDigit then digitsToNat t else 0

/-- Loop body of `get_nrg_trade_data`: extend the accumulator with the
current page's items, break when the accumulated count has reached the
total or the page was empty, else move to the next page. -/
def collectLoopNrg (pages : ℕ → List α) (total : ℕ) :
    List α → ℕ → ℕ → Option (List α)
  | _, _, 0 => none
  | acc, page, fuel + 1 =>
    let items := pages page
    let acc' := acc ++ items
    if total ≤ acc'.length ∨ items.isEmpty then some acc'
    else collectLoopNrg pages total acc' (page + 1) fuel

/-- Whole collection of `get_nrg_trade_data`, starting at page 1. -/
def collectAllNrg (pages : ℕ → List α) (total fuel : ℕ) : Option (List α) :=
  collectLoopNrg pages total [] 1 fuel

/-- Loop body of `get_officetel_rent_data`: break first on an empty page
(without extending), then — after extending — when the reported total was
zero on page 1, then when the accumulated count has reached the total. -/
def collectLoopOffi (pages : ℕ → List α) (total : ℕ) :
    List α → ℕ → ℕ → Option (List α)
  | _, _, 0 => none
  | acc, page, fuel + 1 =>
    let items := pages page
    if items.isEmpty then some acc
    else
      let acc' := acc ++ items
      if total = 0 ∧ page = 1 then some acc'
      else if total ≤ acc'.length then some acc'
      else collectLoopOffi pages total acc' (page + 1) fuel

/-- Whole collection of `get_officetel_rent_data`, starting at page 1. -/
def collectAllOffi (pages : ℕ → List α) (total fuel : ℕ) : Option (List α) :=
  collectLoopOffi pages total [] 1 fuel

/-! ### Summary-cache freshness (the analyze tools)

State of one `(source, summary artifact)` pair as the `analyze_*` tool
wrappers see it: the source file's modification time, the source content,
and — when the artifact file exists — its modification time and content.
`runAnalyzeTool` embeds the wrapper body: if the artifact exists and its
mtime is strictly greater than the source's, return it without
recomputation; otherwise recompute from the source and overwrite the
artifact, stamping it with the current time `now`. -/

structure CacheState (Src Content : Type) where
  sourceMtime : ℕ
  source : Src
  artifact : Option (ℕ × Content)

/-- Outcome of one tool invocation: what was returned, whether the
analysis was recomputed (and the artifact rewritten), and the new disk
state. -/
structure ToolRun (Src Content : Type) where
  output : Content
  recomputed : Bool
  state : CacheState Src Content

/-- Embedding of the cache logic shared by `analyze_apartment_trade`,
`analyze_commercial_property_trade` and the other analyze wrappers. -/
def runAnalyzeTool (compute : Src → Content) (now : ℕ)
    (st : CacheState Src Content) : ToolRun Src Content :=
  match st.artifact with
  | some (amt, ac) =>
    if st.sourceMtime < amt then ⟨ac, false, st⟩
    else
      let c := compute st.source
      ⟨c, true, { st with artifact := some (now, c) }⟩
  | none =>
    let c := compute st.source
    ⟨c, true, { st with artifact := some (now, c) }⟩

/-! ### Raw cache of `get_officetel_rent_data`

The raw cache file `OFFICETEL_RENT_<lawd_cd>_<deal_ymd>.json` for one
(region, month) key: `none` if absent, `some s` its verbatim contents.  On
a hit the file is returned as read, with no fetch and no freshness check;
on a miss the upstream is fetched, and — only when it yields items — the
processed result is written back indented (`pretty`), while the call
itself returns the compact rendering (`render`) of the same result. -/

structure OffiRun where
  output : String
  fetched : Bool
  cache : Option String
deriving DecidableEq

/-- Embedding of the caching shell of `get_officetel_rent_data`. -/
def getOffiRentCached (render pretty : List Row → String) (emptyResult : String)
    (upstream : List Row) (st : Option String) : OffiRun :=
  match st with
  | some s => ⟨s, false, some s⟩
  | none =>
    if upstream.isEmpty then ⟨emptyResult, true, none⟩
    else ⟨render upstream, true, some (pretty upstream)⟩

/-- Total number of items returned by `fuel` consecutive pages starting at
`page` (the accumulated item count the loops compare against the reported
total). -/
def sumLens (pages : ℕ → List α) : ℕ → ℕ → ℕ
  | _, 0 => 0
  | page, fuel + 1 => (pages page).length + sumLens pages (page + 1) fuel

/-! ### Concrete frames used to exercise the theorems -/

/-- One ordinary apartment-trade record (price `1,000`, area `10`). -/
def rowGood : Row := [("거래금액", some "1,000"), ("전용면적", some "10")]

/-- A frame holding just `rowGood`. -/
def dfGood : DataFrame := ⟨[rowGood]⟩

/-- The spec's scenario record: price `"500,000"`, area `"0"`. -/
def rowArea0 : Row := [("거래금액", some "500,000"), ("전용면적", some "0")]

/-- A frame holding just `rowArea0`. -/
def dfArea0 : DataFrame := ⟨[rowArea0]⟩

/-- A frame whose single record carries both the legacy price key
`거래금액` and the modern key `dealAmount`, with different values. -/
def dfBoth : DataFrame := ⟨[[("거래금액", some "100"), ("dealAmount", some "200")]]⟩

/-- A lease record with a negative monthly rent: it survives cleaning but
falls in neither the jeonse (`= 0`) nor the wolse (`> 0`) partition. -/
def rowNegRent : Row := [("보증금액", some "100"), ("월세액", some "-1"), ("전용면적", some "10")]

/-- A frame holding just `rowNegRent`. -/
def dfNegRent : DataFrame := ⟨[rowNegRent]⟩

/-- Two ordinary lease records: one jeonse (rent `0`), one wolse
(rent `50`). -/
def dfRent2 : DataFrame :=
  ⟨[[("보증금액", some "30,000"), ("월세액", some "0"), ("전용면적", some "59")],
    [("보증금액", some "5,000"), ("월세액", some "50"), ("전용면적", some "59")]]⟩

/-- Upstream behaviour for the termination witnesses: two one-item pages,
then empty pages forever. -/
def pagesEnd : ℕ → List ℕ := fun k => if k ≤ 2 then [7] else []

/-- Upstream behaviour for the bound witnesses: every page holds two
items. -/
def pagesFull : ℕ → List ℕ := fun _ => [1, 2]

/-! ## Supporting lemmas -/

/-- Resolution is row-wise: the series `get_col_from_df` returns is the
map of `resolvedCell` over the rows. -/
theorem get_col_eq_map_resolvedCell (df : DataFrame) (names : List String) :
    get_col_from_df df names = df.rows.map (resolvedCell df names) := by
  induction names with
  | nil => rfl
  | cons c rest ih =>
    by_cases h : c ∈ df.columns
    · have hres : resolvedCell df (c :: rest) = fun r => (r.lookup c).join := by
        funext r; simp [resolvedCell, chosenCol, h]
      rw [hres]; simp [get_col_from_df, h, getColumn]
    · have hres : resolvedCell df (c :: rest) = resolvedCell df rest := by
        funext r; simp [resolvedCell, chosenCol, h]
      rw [hres, ← ih]; simp [get_col_from_df, h]

/-- Zipping a list with two maps of itself is a single map. -/
theorem zip_map_pair (l : List α) (f : α → β) (g : α → γ) :
    l.zip ((l.map f).zip (l.map g)) = l.map (fun r => (r, f r, g r)) := by
  induction l with
  | nil => rfl
  | cons x xs ih => simp [ih]

/-- Zipping a list with three maps of itself is a single map. -/
theorem zip_map_triple (l : List α) (f : α → β) (g : α → γ) (h : α → δ) :
    l.zip ((l.map f).zip ((l.map g).zip (l.map h))) =
      l.map (fun r => (r, f r, g r, h r)) := by
  induction l with
  | nil => rfl
  | cons x xs ih => simp [ih]

/-- The trade cleaning step, characterised row-wise. -/
theorem cleanRecords_eq_filterMap (df : DataFrame) (pn an : List String) :
    cleanRecords df pn an = df.rows.filterMap (fun r =>
      match toNumericCell (resolvedCell df pn r), toNumericCell (resolvedCell df an r) with
      | some p, some a => if 0 < a then some (r, p, a) else none
      | _, _ => none) := by
  unfold cleanRecords numericSeries
  rw [get_col_eq_map_resolvedCell, get_col_eq_map_resolvedCell, List.map_map, List.map_map,
    zip_map_pair, List.filterMap_map]
  congr 1
  funext r
  cases hF : toNumericCell (resolvedCell df pn r) <;>
    cases hG : toNumericCell (resolvedCell df an r) <;>
      simp [Function.comp, hF, hG]

/-- The rent cleaning step, characterised row-wise. -/
theorem cleanRentRecords_eq_filterMap (df : DataFrame) :
    cleanRentRecords df = df.rows.filterMap (fun r =>
      match toNumericCell (resolvedCell df rentDepositCols r),
          toNumericCell (resolvedCell df rentMonthlyCols r),
          toNumericCell (resolvedCell df rentAreaCols r) with
      | some d, some m, some a => if 0 < a then some (r, d, m, a) else none
      | _, _, _ => none) := by
  unfold cleanRentRecords numericSeries
  rw [get_col_eq_map_resolvedCell, get_col_eq_map_resolvedCell, get_col_eq_map_resolvedCell,
    List.map_map, List.map_map, List.map_map, zip_map_triple, List.filterMap_map]
  congr 1
  funext r
  cases hF : toNumericCell (resolvedCell df rentDepositCols r) <;>
    cases hG : toNumericCell (resolvedCell df rentMonthlyCols r) <;>
      cases hH : toNumericCell (resolvedCell df rentAreaCols r) <;>
        simp [Function.comp, hF, hG, hH]

/-- More fuel never hurts: a run that breaks within `n` iterations breaks
within any `m ≥ n`. -/
theorem collectLoopNrg_mono (pages : ℕ → List α) (total : ℕ) :
    ∀ (n m : ℕ) (acc : List α) (page : ℕ), n ≤ m →
      (collectLoopNrg pages total acc page n).isSome →
      (collectLoopNrg pages total acc page m).isSome := by
  intro n
  induction n with
  | zero => intro m acc page _ h; simp [collectLoopNrg] at h
  | succ k ih =>
    intro m acc page hnm h
    obtain ⟨m', rfl⟩ : ∃ m', m = m' + 1 := ⟨m - 1, by omega⟩
    by_cases hstop : total ≤ (acc ++ pages page).length ∨ (pages page).isEmpty = true
    · simp only [collectLoopNrg]
      rw [if_pos hstop]
      rfl
    · simp only [collectLoopNrg, if_neg hstop] at h ⊢
      exact ih m' _ _ (by omega) h

/-- The `get_nrg_trade_data` loop breaks within `fuel` iterations if some
page it can reach within the fuel is empty. -/
theorem collectLoopNrg_isSome_of_empty (pages : ℕ → List α) (total : ℕ) :
    ∀ (fuel page : ℕ) (acc : List α) (d : ℕ), d < fuel → pages (page + d) = [] →
      (collectLoopNrg pages total acc page fuel).isSome := by
  intro fuel
  induction fuel with
  | zero => intro page acc d hd _; omega
  | succ f ih =>
    intro page acc d hd hempty
    by_cases hstop : total ≤ (acc ++ pages page).length ∨ (pages page).isEmpty = true
    · simp only [collectLoopNrg]
      rw [if_pos hstop]
      rfl
    · have hne : (pages page).isEmpty ≠ true := fun h => hstop (Or.inr h)
      have hd0 : d ≠ 0 := by
        rintro rfl
        rw [Nat.add_zero] at hempty
        exact hne (by simp [hempty])
      obtain ⟨d', rfl⟩ : ∃ d', d = d' + 1 := ⟨d - 1, by omega⟩
      simp only [collectLoopNrg, if_neg hstop]
      exact ih (page + 1) (acc ++ pages page) d' (by omega)
        (by rw [show page + 1 + d' = page + (d' + 1) by omega]; exact hempty)

/-- The `get_nrg_trade_data` loop breaks within `fuel` iterations once the
items the next `fuel` pages return suffice to reach the total. -/
theorem collectLoopNrg_isSome_of_sum (pages : ℕ → List α) (total : ℕ) :
    ∀ (fuel page : ℕ) (acc : List α), 1 ≤ fuel →
      total ≤ acc.length + sumLens pages page fuel →
      (collectLoopNrg pages total acc page fuel).isSome := by
  intro fuel
  induction fuel with
  | zero => intro page acc h; omega
  | succ f ih =>
    intro page acc _ htot
    by_cases hstop : total ≤ (acc ++ pages page).length ∨ (pages page).isEmpty = true
    · simp only [collectLoopNrg]
      rw [if_pos hstop]
      rfl
    · have hA : ¬ total ≤ (acc ++ pages page).length := (not_or.mp hstop).1
      have hs : sumLens pages page (f + 1) = (pages page).length + sumLens pages (page + 1) f := rfl
      have hf : 1 ≤ f := by
        rcases Nat.eq_zero_or_pos f with rfl | h
        · exfalso
          apply hA
          have hs2 : sumLens pages (page + 1) 0 = 0 := rfl
          rw [List.length_append]
          omega
        · exact h
      simp only [collectLoopNrg, if_neg hstop]
      apply ih (page + 1) (acc ++ pages page) hf
      rw [List.length_append]
      omega

/-- The `get_nrg_trade_data` loop breaks within `fuel` iterations when the
pages it can reach are all full (`ps` items) and the fuel covers the
total. -/
theorem collectLoopNrg_isSome_of_full (pages : ℕ → List α) (total ps : ℕ) :
    ∀ (fuel page : ℕ) (acc : List α), 1 ≤ fuel →
      (∀ k, page ≤ k → k < page + fuel → (pages k).length = ps) →
      total ≤ fuel * ps + acc.length →
      (collectLoopNrg pages total acc page fuel).isSome := by
  intro fuel
  induction fuel with
  | zero => intro page acc h; omega
  | succ f ih =>
    intro page acc _ hfull htot
    by_cases hstop : total ≤ (acc ++ pages page).length ∨ (pages page).isEmpty = true
    · simp only [collectLoopNrg]
      rw [if_pos hstop]
      rfl
    · have hA : ¬ total ≤ (acc ++ pages page).length := (not_or.mp hstop).1
      have hlen : (pages page).length = ps := hfull page (le_refl _) (by omega)
      have hexp : (f + 1) * ps = f * ps + ps := by ring
      have hf : 1 ≤ f := by
        rcases Nat.eq_zero_or_pos f with rfl | h
        · exfalso
          apply hA
          rw [List.length_append, hlen]
          omega
        · exact h
      simp only [collectLoopNrg, if_neg hstop]
      apply ih (page + 1) (acc ++ pages page) hf
      · intro k hk1 hk2
        exact hfull k (by omega) (by omega)
      · rw [List.length_append, hlen]
        omega

/-- With a reported total of zero, the `get_nrg_trade_data` loop breaks on
its very first iteration. -/
theorem collectLoopNrg_isSome_total_zero (pages : ℕ → List α) (page : ℕ) (acc : List α) :
    (collectLoopNrg pages 0 acc page 1).isSome := by
  simp [collectLoopNrg]

/-- More fuel never hurts (officetel variant). -/
theorem collectLoopOffi_mono (pages : ℕ → List α) (total : ℕ) :
    ∀ (n m : ℕ) (acc : List α) (page : ℕ), n ≤ m →
      (collectLoopOffi pages total acc page n).isSome →
      (collectLoopOffi pages total acc page m).isSome := by
  intro n
  induction n with
  | zero => intro m acc page _ h; simp [collectLoopOffi] at h
  | succ k ih =>
    intro m acc page hnm h
    obtain ⟨m', rfl⟩ : ∃ m', m = m' + 1 := ⟨m - 1, by omega⟩
    by_cases hemp : (pages page).isEmpty = true
    · simp only [collectLoopOffi]
      rw [if_pos hemp]
      rfl
    · by_cases hz : total = 0 ∧ page = 1
      · simp only [collectLoopOffi]
        rw [if_neg hemp, if_pos hz]
        rfl
      · by_cases hstop : total ≤ (acc ++ pages page).length
        · simp only [collectLoopOffi]
          rw [if_neg hemp, if_neg hz, if_pos hstop]
          rfl
        · simp only [collectLoopOffi, if_neg hemp, if_neg hz, if_neg hstop] at h ⊢
          exact ih m' _ _ (by omega) h

/-- The `get_officetel_rent_data` loop breaks within `fuel` iterations if
some page it can reach within the fuel is empty. -/
theorem collectLoopOffi_isSome_of_empty (pages : ℕ → List α) (total : ℕ) :
    ∀ (fuel page : ℕ) (acc : List α) (d : ℕ), d < fuel → pages (page + d) = [] →
      (collectLoopOffi pages total acc page fuel).isSome := by
  intro fuel
  induction fuel with
  | zero => intro page acc d hd _; omega
  | succ f ih =>
    intro page acc d hd hempty
    by_cases hemp : (pages page).isEmpty = true
    · simp only [collectLoopOffi]
      rw [if_pos hemp]
      rfl
    · have hd0 : d ≠ 0 := by
        rintro rfl
        rw [Nat.add_zero] at hempty
        exact hemp (by simp [hempty])
      obtain ⟨d', rfl⟩ : ∃ d', d = d' + 1 := ⟨d - 1, by omega⟩
      by_cases hz : total = 0 ∧ page = 1
      · simp only [collectLoopOffi]
        rw [if_neg hemp, if_pos hz]
        rfl
      · by_cases hstop : total ≤ (acc ++ pages page).length
        · simp only [collectLoopOffi]
          rw [if_neg hemp, if_neg hz, if_pos hstop]
          rfl
        · simp only [collectLoopOffi, if_neg hemp, if_neg hz, if_neg hstop]
          exact ih (page + 1) (acc ++ pages page) d' (by omega)
            (by rw [show page + 1 + d' = page + (d' + 1) by omega]; exact hempty)

/-- The `get_officetel_rent_data` loop breaks within `fuel` iterations once
the items the next `fuel` pages return suffice to reach the total. -/
theorem collectLoopOffi_isSome_of_sum (pages : ℕ → List α) (total : ℕ) :
    ∀ (fuel page : ℕ) (acc : List α), 1 ≤ fuel →
      total ≤ acc.length + sumLens pages page fuel →
      (collectLoopOffi pages total acc page fuel).isSome := by
  intro fuel
  induction fuel with
  | zero => intro page acc h; omega
  | succ f ih =>
    intro page acc _ htot
    by_cases hemp : (pages page).isEmpty = true
    · simp only [collectLoopOffi]
      rw [if_pos hemp]
      rfl
    · by_cases hz : total = 0 ∧ page = 1
      · simp only [collectLoopOffi]
        rw [if_neg hemp, if_pos hz]
        rfl
      · by_cases hstop : total ≤ (acc ++ pages page).length
        · simp only [collectLoopOffi]
          rw [if_neg hemp, if_neg hz, if_pos hstop]
          rfl
        · have hs : sumLens pages page (f + 1) =
              (pages page).length + sumLens pages (page + 1) f := rfl
          have hf : 1 ≤ f := by
            rcases Nat.eq_zero_or_pos f with rfl | h
            · exfalso
              apply hstop
              have hs2 : sumLens pages (page + 1) 0 = 0 := rfl
              rw [List.length_append]
              omega
            · exact h
          simp only [collectLoopOffi, if_neg hemp, if_neg hz, if_neg hstop]
          apply ih (page + 1) (acc ++ pages page) hf
          rw [List.length_append]
          omega

/-- The `get_officetel_rent_data` loop breaks within `fuel` iterations when
the pages it can reach are all full and the fuel covers the total. -/
theorem collectLoopOffi_isSome_of_full (pages : ℕ → List α) (total ps : ℕ) :
    ∀ (fuel page : ℕ) (acc : List α), 1 ≤ fuel →
      (∀ k, page ≤ k → k < page + fuel → (pages k).length = ps) →
      total ≤ fuel * ps + acc.length →
      (collectLoopOffi pages total acc page fuel).isSome := by
  intro fuel
  induction fuel with
  | zero => intro page acc h; omega
  | succ f ih =>
    intro page acc _ hfull htot
    by_cases hemp : (pages page).isEmpty = true
    · simp only [collectLoopOffi]
      rw [if_pos hemp]
      rfl
    · by_cases hz : total = 0 ∧ page = 1
      · simp only [collectLoopOffi]
        rw [if_neg hemp, if_pos hz]
        rfl
      · by_cases hstop : total ≤ (acc ++ pages page).length
        · simp only [collectLoopOffi]
          rw [if_neg hemp, if_neg hz, if_pos hstop]
          rfl
        · have hlen : (pages page).length = ps := hfull page (le_refl _) (by omega)
          have hexp : (f + 1) * ps = f * ps + ps := by ring
          have hf : 1 ≤ f := by
            rcases Nat.eq_zero_or_pos f with rfl | h
            · exfalso
              apply hstop
              rw [List.length_append, hlen]
              omega
            · exact h
          simp only [collectLoopOffi, if_neg hemp, if_neg hz, if_neg hstop]
          apply ih (page + 1) (acc ++ pages page) hf
          · intro k hk1 hk2
            exact hfull k (by omega) (by omega)
          · rw [List.length_append, hlen]
            omega

/-- With a reported total of zero, the `get_officetel_rent_data` loop
breaks on its very first iteration. -/
theorem collectLoopOffi_isSome_total_zero (pages : ℕ → List α) (acc : List α) :
    (collectLoopOffi pages 0 acc 1 1).isSome := by
  by_cases hemp : (pages 1).isEmpty = true
  · simp only [collectLoopOffi]
    rw [if_pos hemp]
    rfl
  · simp only [collectLoopOffi]
    rw [if_neg hemp]
    simp

/-- No record is in both rent partitions: its rent cannot be both zero and
positive. -/
theorem jeonse_wolse_disjoint (l : List (Row × ℚ × ℚ × ℚ)) (e : Row × ℚ × ℚ × ℚ)
    (hj : e ∈ jeonseRecords l) (hw : e ∈ wolseRecords l) : False := by
  have h1 : e.2.2.1 = 0 := by simpa using List.of_mem_filter hj
  have h2 : 0 < e.2.2.1 := by simpa using List.of_mem_filter hw
  exact absurd h1 h2.ne'

/-- When every rent is nonnegative, the two partitions cover the cleaned
list exactly. -/
theorem jeonse_wolse_counts (l : List (Row × ℚ × ℚ × ℚ))
    (h : ∀ e ∈ l, 0 ≤ e.2.2.1) :
    (jeonseRecords l).length + (wolseRecords l).length = l.length := by
  induction l with
  | nil => rfl
  | cons e t ih =>
    have he := h e (List.mem_cons_self e t)
    have ht : ∀ x ∈ t, 0 ≤ x.2.2.1 := fun x hx => h x (List.mem_cons_of_mem e hx)
    have hIH := ih ht
    simp only [jeonseRecords, wolseRecords] at hIH ⊢
    rcases eq_or_lt_of_le he with hzero | hpos
    · have hz : e.2.2.1 = 0 := hzero.symm
      rw [List.filter_cons, List.filter_cons, if_pos (by simp [hz]), if_neg (by simp [hz])]
      simp only [List.length_cons]
      omega
    · rw [List.filter_cons, List.filter_cons, if_neg (by simp [hpos.ne']), if_pos (by simp [hpos])]
      simp only [List.length_cons]
      omega

/-! ## Claims -/

/-- C1, counterexample: the claim says coercing the empty string and null
yields MISSING and never 0, for `to_numeric` and `to_num` alike; but
`to_num` (`apis/officetel_rent.py`) maps both the empty string (through
`'' or 0`) and null (through the caught `ValueError` on `float("None")`)
to `0.0` — its result type has no missing value at all. -/
theorem to_num_maps_empty_and_null_to_zero :
    to_num (some "") = 0 ∧ to_num none = 0 := ⟨by decide, by decide⟩

/-- C1, amended: numeric coercion is total and never raises; `to_numeric`
maps "1,234" to 1234.0 and the empty string and null to MISSING, while
`to_num` also maps "1,234" to 1234.0 but maps the empty string and null to
0.0 (a float), not MISSING. -/
theorem numeric_coercion_amended :
    toNumericCell (some "1,234") = some 1234
    ∧ toNumericCell (some "") = none
    ∧ toNumericCell none = none
    ∧ (∀ c : Cell, (toNumericCell c).isSome ∨ toNumericCell c = none)
    ∧ to_num (some "1,234") = 1234
    ∧ to_num (some "") = 0
    ∧ to_num none = 0 := by
  refine ⟨by decide, by decide, by decide, ?_, by decide, by decide, by decide⟩
  intro c
  rcases h : toNumericCell c with _ | q
  · exact Or.inr rfl
  · exact Or.inl (by simp [h])

/-- C5, counterexample: the claim says every formatted numeric value is
truncated to an integer; but on unit `"만원"` the formatter returns the
value rescaled ×10000 with no rounding, so the fractional value 1/3
formats to 10000/3, whose denominator is 3 (not an integer). -/
theorem as_value_unit_keeps_fraction :
    as_value_unit (some (1/3)) "만원" = some ⟨10000/3, "원"⟩
    ∧ ((10000 : ℚ)/3).den = 3 := ⟨by norm_num [as_value_unit], by norm_num⟩

/-- C5, amended: the formatter maps MISSING to null and rescales unit
`"만원"` ×10000 to `"원"` (so internal 50000 formats to 500000000 원), but
only values formatted through the default-unit branch with precision 0 are
rounded to integers; the `"만원"` / `"만원/평"` branches return the scaled
value unrounded, which can be fractional. -/
theorem as_value_unit_amended :
    (∀ (u : String) (p : ℕ), as_value_unit none u p = none)
    ∧ (∀ q : ℚ, as_value_unit (some q) "만원" = some ⟨q * 10000, "원"⟩)
    ∧ as_value_unit (some 50000) "만원" = some ⟨500000000, "원"⟩
    ∧ (∀ (q : ℚ) (u : String), u ≠ "만원" → u ≠ "만원/평" →
        as_value_unit (some q) u 0 = some ⟨(pyRound q : ℚ), u⟩) := by
  refine ⟨fun u p => rfl, fun q => by simp [as_value_unit], by norm_num [as_value_unit], ?_⟩
  intro q u h1 h2
  simp [as_value_unit, h1, h2]

/-- C5, witness for the amended claim's hypotheses: the non-currency unit
`"㎡"` goes through the rounding branch. -/
theorem as_value_unit_amended_witness :
    as_value_unit (some (7/2)) "㎡" 0 = some ⟨(pyRound (7/2) : ℚ), "㎡"⟩ :=
  as_value_unit_amended.2.2.2 (7/2) "㎡" (by decide) (by decide)

/-- C8: field resolution returns the value of the first candidate name
present among the columns (so a legacy name listed first wins over a
modern name also present), returns an all-missing series when no candidate
is present, and always returns a series of the frame's length (it never
throws). -/
theorem field_resolution_priority :
    (∀ (df : DataFrame) (pre : List String) (c : String) (post : List String),
        (∀ x ∈ pre, x ∉ df.columns) → c ∈ df.columns →
        get_col_from_df df (pre ++ c :: post) = getColumn df c)
    ∧ (∀ (df : DataFrame) (names : List String),
        (∀ x ∈ names, x ∉ df.columns) →
        get_col_from_df df names = df.rows.map fun _ => none)
    ∧ (∀ (df : DataFrame) (names : List String),
        (get_col_from_df df names).length = df.rows.length) := by
  refine ⟨?_, ?_, ?_⟩
  · intro df pre c post
    induction pre with
    | nil =>
      intro _ hc
      simp [get_col_from_df, hc]
    | cons x xs ih =>
      intro hpre hc
      have hx : x ∉ df.columns := hpre x (List.mem_cons_self x xs)
      have hstep : get_col_from_df df (x :: xs ++ c :: post) =
          get_col_from_df df (xs ++ c :: post) := by
        simp [get_col_from_df, hx]
      rw [hstep]
      exact ih (fun y hy => hpre y (List.mem_cons_of_mem x hy)) hc
  · intro df names
    induction names with
    | nil => intro _; rfl
    | cons x xs ih =>
      intro hnone
      have hx : x ∉ df.columns := hnone x (List.mem_cons_self x xs)
      have hstep : get_col_from_df df (x :: xs) = get_col_from_df df xs := by
        simp [get_col_from_df, hx]
      rw [hstep]
      exact ih (fun y hy => hnone y (List.mem_cons_of_mem x hy))
  · intro df names
    rw [get_col_eq_map_resolvedCell, List.length_map]

/-- C8, witness: on a record carrying both the legacy key `거래금액` and
the modern key `dealAmount`, the candidate list starting with the legacy
key resolves to the legacy column; an all-absent candidate list yields the
all-missing series. -/
theorem field_resolution_priority_witness :
    get_col_from_df dfBoth ["거래금액", "dealAmount"] = getColumn dfBoth "거래금액"
    ∧ get_col_from_df dfBoth ["zzz"] = dfBoth.rows.map fun _ => none :=
  ⟨field_resolution_priority.1 dfBoth [] "거래금액" ["dealAmount"]
      (by intro x hx; simp at hx) (by decide),
   field_resolution_priority.2.1 dfBoth ["zzz"] (by decide)⟩

/-- C9: the summary-cache path is a pure function of the source stem and
the discriminator; for property types commercial, land and industrial it
is `<cache-dir>/<stem>_summary.json` whatever the trade type, and for any
other property type with a trade type given (truthy: non-None and
non-empty, as `if trade_type:` tests) it is
`<cache-dir>/<stem>_<trade_type>_summary.json`; a falsy trade type (none
or the empty string) falls back to the untagged name. -/
theorem summary_cache_path_spec :
    (∀ (cacheDir stem pt : String) (tt : Option String),
        (pt = "commercial" ∨ pt = "land" ∨ pt = "industrial") →
        get_summary_cache_path cacheDir stem (some pt) tt =
          cacheDir ++ "/" ++ stem ++ "_summary.json")
    ∧ (∀ (cacheDir stem : String) (pt : Option String) (tt : String),
        ¬(pt = some "commercial" ∨ pt = some "land" ∨ pt = some "industrial") →
        tt ≠ "" →
        get_summary_cache_path cacheDir stem pt (some tt) =
          cacheDir ++ "/" ++ stem ++ "_" ++ tt ++ "_summary.json")
    ∧ (∀ (cacheDir stem : String) (pt tt : Option String),
        ¬(pt = some "commercial" ∨ pt = some "land" ∨ pt = some "industrial") →
        (tt = some "" ∨ tt = none) →
        get_summary_cache_path cacheDir stem pt tt =
          cacheDir ++ "/" ++ stem ++ "_summary.json") := by
  refine ⟨?_, ?_, ?_⟩
  · intro cacheDir stem pt tt h
    have h' : some pt = some "commercial" ∨ some pt = some "land" ∨
        some pt = some "industrial" := by
      rcases h with h | h | h <;> simp [h]
    unfold get_summary_cache_path
    rw [if_pos h']
  · intro cacheDir stem pt tt h htne
    unfold get_summary_cache_path
    rw [if_neg h]
    simp only [if_neg htne]
  · intro cacheDir stem pt tt h hfalsy
    unfold get_summary_cache_path
    rw [if_neg h]
    rcases hfalsy with rfl | rfl
    · rfl
    · rfl

/-- C9, witness: a commercial source collapses trade and rent into one
artifact name; an apartment source with trade type `rent` gets the
trade-type-tagged name; an apartment source with an empty-string trade
type gets the untagged name. -/
theorem summary_cache_path_spec_witness :
    get_summary_cache_path "cache" "NRG_11680_202406" (some "commercial") (some "rent")
      = "cache" ++ "/" ++ "NRG_11680_202406" ++ "_summary.json"
    ∧ get_summary_cache_path "cache" "APT_11680_202406" (some "apartment") (some "rent")
      = "cache" ++ "/" ++ "APT_11680_202406" ++ "_" ++ "rent" ++ "_summary.json"
    ∧ get_summary_cache_path "cache" "APT_11680_202406" (some "apartment") (some "")
      = "cache" ++ "/" ++ "APT_11680_202406" ++ "_summary.json" :=
  ⟨summary_cache_path_spec.1 "cache" "NRG_11680_202406" "commercial" (some "rent") (Or.inl rfl),
   summary_cache_path_spec.2.1 "cache" "APT_11680_202406" (some "apartment") "rent"
     (by decide) (by decide),
   summary_cache_path_spec.2.2 "cache" "APT_11680_202406" (some "apartment") (some "")
     (by decide) (Or.inl rfl)⟩

/-- C2: every record surviving the cleaning step of an `analyze_*_data`
function comes from the input frame, has a parseable (non-MISSING) price
and a parseable area strictly greater than 0; and a record whose resolved
price is MISSING, or whose resolved area is MISSING or parses to a value
≤ 0, never survives cleaning. -/
theorem cleaning_invariant :
    (∀ (df : DataFrame) (pn an : List String) (r : Row) (p a : ℚ),
        (r, p, a) ∈ cleanRecords df pn an →
        r ∈ df.rows ∧ toNumericCell (resolvedCell df pn r) = some p ∧
          toNumericCell (resolvedCell df an r) = some a ∧ 0 < a)
    ∧ (∀ (df : DataFrame) (pn an : List String) (r : Row),
        (toNumericCell (resolvedCell df pn r) = none ∨
          toNumericCell (resolvedCell df an r) = none ∨
          (∃ a₀, toNumericCell (resolvedCell df an r) = some a₀ ∧ a₀ ≤ 0)) →
        ∀ p a, (r, p, a) ∉ cleanRecords df pn an) := by
  have hmain : ∀ (df : DataFrame) (pn an : List String) (r : Row) (p a : ℚ),
      (r, p, a) ∈ cleanRecords df pn an →
      r ∈ df.rows ∧ toNumericCell (resolvedCell df pn r) = some p ∧
        toNumericCell (resolvedCell df an r) = some a ∧ 0 < a := by
    intro df pn an r p a h
    rw [cleanRecords_eq_filterMap] at h
    rcases List.mem_filterMap.mp h with ⟨r₀, hr₀, heq⟩
    rcases hp : toNumericCell (resolvedCell df pn r₀) with _ | p₀
    · simp [hp] at heq
    rcases ha : toNumericCell (resolvedCell df an r₀) with _ | a₀
    · simp [hp, ha] at heq
    simp only [hp, ha] at heq
    by_cases hpos : 0 < a₀
    · rw [if_pos hpos] at heq
      simp only [Option.some.injEq, Prod.mk.injEq] at heq
      obtain ⟨rfl, rfl, rfl⟩ := heq
      exact ⟨hr₀, hp, ha, hpos⟩
    · rw [if_neg hpos] at heq
      simp at heq
  refine ⟨hmain, ?_⟩
  intro df pn an r hbad p a hmem
  obtain ⟨_, hp, ha, hpos⟩ := hmain df pn an r p a hmem
  rcases hbad with hb | hb | ⟨a₀, hb, hle⟩
  · rw [hp] at hb
    exact Option.noConfusion hb
  · rw [ha] at hb
    exact Option.noConfusion hb
  · rw [ha] at hb
    have haa : a = a₀ := Option.some.inj hb
    exact absurd (haa ▸ hpos) (not_lt.mpr hle)

/-- C2, witness: the record (price "1,000", area "10") survives cleaning
with price 1000, area 10 > 0; the spec's record (price "500,000", area
"0") never survives. -/
theorem cleaning_invariant_witness :
    (rowGood ∈ dfGood.rows ∧
      toNumericCell (resolvedCell dfGood aptTradePriceCols rowGood) = some 1000 ∧
      toNumericCell (resolvedCell dfGood aptTradeAreaCols rowGood) = some 10 ∧ (0 : ℚ) < 10)
    ∧ (rowArea0, (500000 : ℚ), (0 : ℚ)) ∉ cleanRecords dfArea0 aptTradePriceCols aptTradeAreaCols :=
  ⟨cleaning_invariant.1 dfGood aptTradePriceCols aptTradeAreaCols rowGood 1000 10 (by decide),
   cleaning_invariant.2 dfArea0 aptTradePriceCols aptTradeAreaCols rowArea0
      (Or.inr (Or.inr ⟨0, by decide, le_refl 0⟩)) 500000 0⟩

/-- C6, counterexample: a cleaned lease record set holding one record with
monthly rent parsed to −1 has one cleaned record, but both the jeonse
(rent = 0) and wolse (rent > 0) partitions are empty, so the partition
counts do not sum to the cleaned count. -/
theorem rent_partition_counterexample :
    (cleanRentRecords dfNegRent).length = 1
    ∧ (jeonseRecords (cleanRentRecords dfNegRent)).length = 0
    ∧ (wolseRecords (cleanRentRecords dfNegRent)).length = 0 :=
  ⟨by decide, by decide, by decide⟩

/-- C6, amended: the jeonse and wolse partitions of a cleaned lease record
set are always disjoint, and — provided every cleaned record's monthly
rent is nonnegative, as holds for upstream rent amounts — their counts sum
to the cleaned record count (a record with a negative parsed rent falls in
neither partition). -/
theorem rent_partition_amended :
    (∀ (df : DataFrame) (e : Row × ℚ × ℚ × ℚ),
        e ∈ jeonseRecords (cleanRentRecords df) → e ∉ wolseRecords (cleanRentRecords df))
    ∧ (∀ df : DataFrame, (∀ e ∈ cleanRentRecords df, 0 ≤ e.2.2.1) →
        (jeonseRecords (cleanRentRecords df)).length +
          (wolseRecords (cleanRentRecords df)).length = (cleanRentRecords df).length) :=
  ⟨fun _ e hj hw => absurd hw (fun hw' => jeonse_wolse_disjoint _ e hj hw'),
   fun _ h => jeonse_wolse_counts _ h⟩

/-- C6, witness: on two ordinary lease records (rents 0 and 50) the
partition counts sum to the cleaned count. -/
theorem rent_partition_amended_witness :
    (jeonseRecords (cleanRentRecords dfRent2)).length +
      (wolseRecords (cleanRentRecords dfRent2)).length = (cleanRentRecords dfRent2).length :=
  rent_partition_amended.2 dfRent2 (by decide)

/-- C7: an empty input frame yields the explicit "No data to analyze."
error object; a non-empty frame whose records are all dropped by cleaning
yields the explicit "No valid transaction data after cleaning." error
object — in particular the spec's single record with price "500,000" and
area "0" does; and every run either returns one of the two error objects
or a statistics object counting at least one record (never a zero-valued
statistics object, and never an exception — the function is total). -/
theorem analyze_no_data_errors :
    analyzeApartmentTradeData ⟨[]⟩ = .error "No data to analyze."
    ∧ (∀ df : DataFrame, df.rows ≠ [] →
        cleanRecords df aptTradePriceCols aptTradeAreaCols = [] →
        analyzeApartmentTradeData df = .error "No valid transaction data after cleaning.")
    ∧ analyzeApartmentTradeData dfArea0 = .error "No valid transaction data after cleaning."
    ∧ (∀ df : DataFrame,
        analyzeApartmentTradeData df = .error "No data to analyze."
        ∨ analyzeApartmentTradeData df = .error "No valid transaction data after cleaning."
        ∨ ∃ s : TradeStats, analyzeApartmentTradeData df = .ok s ∧ 0 < s.totalTransactionCount)
    ∧ analyzeApartmentRentData ⟨[]⟩ = .error "No data to analyze." := by
  refine ⟨rfl, ?_, by decide, ?_, rfl⟩
  · intro df h1 h2
    simp only [analyzeApartmentTradeData]
    rw [if_neg (by simpa using h1), if_pos (by simpa using h2)]
  · intro df
    by_cases h1 : df.rows.isEmpty = true
    · left
      simp only [analyzeApartmentTradeData]
      rw [if_pos h1]
    · by_cases h2 : (cleanRecords df aptTradePriceCols aptTradeAreaCols).isEmpty = true
      · right; left
        simp only [analyzeApartmentTradeData]
        rw [if_neg h1, if_pos h2]
      · right; right
        refine ⟨⟨(cleanRecords df aptTradePriceCols aptTradeAreaCols).length,
            ((cleanRecords df aptTradePriceCols aptTradeAreaCols).map (fun e => e.2.1)).sum,
            ((cleanRecords df aptTradePriceCols aptTradeAreaCols).map (fun e => e.2.1)).sum /
              ((cleanRecords df aptTradePriceCols aptTradeAreaCols).length : ℚ),
            listMedian ((cleanRecords df aptTradePriceCols aptTradeAreaCols).map (fun e => e.2.1)),
            listMax ((cleanRecords df aptTradePriceCols aptTradeAreaCols).map (fun e => e.2.1)),
            listMin ((cleanRecords df aptTradePriceCols aptTradeAreaCols).map (fun e => e.2.1))⟩,
          ?_, ?_⟩
        · simp only [analyzeApartmentTradeData]
          rw [if_neg h1, if_neg h2]
        · have h3 : cleanRecords df aptTradePriceCols aptTradeAreaCols ≠ [] := by
            simpa using h2
          simpa using List.length_pos.mpr h3

/-- C7, witness: the spec's scenario frame is non-empty, cleans to the
empty set, and indeed yields the cleaning error object. -/
theorem analyze_no_data_errors_witness :
    analyzeApartmentTradeData dfArea0 = .error "No valid transaction data after cleaning." :=
  analyze_no_data_errors.2.1 dfArea0 (by decide) (by decide)

/-- C3: both page-collection loops terminate — within `N` iterations when
page `N` is empty or the first `N` pages already carry the reported total;
within `ceil(totalCount / pageSize) + 1` iterations when every non-final
page (every page before a nonempty page) returns `pageSize` items; and in
one iteration when the reported total is zero — while an absent, blank or
unparseable reported total is treated as zero. -/
theorem pagination_termination :
    (∀ (pages : ℕ → List ℕ) (total N : ℕ), 1 ≤ N →
        (pages N = [] ∨ total ≤ sumLens pages 1 N) →
        (collectAllNrg pages total N).isSome)
    ∧ (∀ (pages : ℕ → List ℕ) (total ps : ℕ), 0 < ps →
        (∀ j k, 1 ≤ j → j < k → pages k ≠ [] → (pages j).length = ps) →
        (collectAllNrg pages total ((total + ps - 1) / ps + 1)).isSome)
    ∧ (∀ pages : ℕ → List ℕ, (collectAllNrg pages 0 1).isSome)
    ∧ (∀ (pages : ℕ → List ℕ) (total N : ℕ), 1 ≤ N →
        (pages N = [] ∨ total ≤ sumLens pages 1 N) →
        (collectAllOffi pages total N).isSome)
    ∧ (∀ (pages : ℕ → List ℕ) (total ps : ℕ), 0 < ps →
        (∀ j k, 1 ≤ j → j < k → pages k ≠ [] → (pages j).length = ps) →
        (collectAllOffi pages total ((total + ps - 1) / ps + 1)).isSome)
    ∧ (∀ pages : ℕ → List ℕ, (collectAllOffi pages 0 1).isSome)
    ∧ parseTotalCount none = 0 ∧ parseTotalCount (some " ") = 0
    ∧ parseTotalCount (some "abc") = 0 := by
  refine ⟨?_, ?_, ?_, ?_, ?_, ?_, by decide, by decide, by decide⟩
  · intro pages total N hN h
    rcases h with hempty | hsum
    · apply collectLoopNrg_isSome_of_empty pages total N 1 [] (N - 1) (by omega)
      rw [show 1 + (N - 1) = N by omega]
      exact hempty
    · apply collectLoopNrg_isSome_of_sum pages total N 1 [] hN
      simpa using hsum
  · intro pages total ps hps hfin
    by_cases hzero : total = 0
    · subst hzero
      exact collectLoopNrg_mono pages 0 1 ((0 + ps - 1) / ps + 1) [] 1 (Nat.le_add_left 1 _)
        (collectLoopNrg_isSome_total_zero pages 1 [])
    · by_cases hemp : ∃ NN, 1 ≤ NN ∧ NN ≤ (total + ps - 1) / ps + 1 ∧ pages NN = []
      · obtain ⟨NN, hN1, hN2, hN3⟩ := hemp
        apply collectLoopNrg_isSome_of_empty pages total ((total + ps - 1) / ps + 1) 1 []
          (NN - 1) (by omega)
        rw [show 1 + (NN - 1) = NN by omega]
        exact hN3
      · push_neg at hemp
        have hfull : ∀ k, 1 ≤ k → k < 1 + (total + ps - 1) / ps → (pages k).length = ps := by
          intro k hk1 hk2
          exact hfin k (k + 1) hk1 (by omega) (hemp (k + 1) (by omega) (by omega))
        have hc1 : 1 ≤ (total + ps - 1) / ps := by
          rw [Nat.le_div_iff_mul_le hps]
          omega
        have hbound : total ≤ ((total + ps - 1) / ps) * ps + ([] : List ℕ).length := by
          have h1 := Nat.div_add_mod (total + ps - 1) ps
          have h2 := Nat.mod_lt (total + ps - 1) hps
          have h3 : ((total + ps - 1) / ps) * ps = ps * ((total + ps - 1) / ps) := by ring
          simp only [List.length_nil, Nat.add_zero]
          omega
        exact collectLoopNrg_mono pages total ((total + ps - 1) / ps)
          ((total + ps - 1) / ps + 1) [] 1 (by omega)
          (collectLoopNrg_isSome_of_full pages total ps ((total + ps - 1) / ps) 1 [] hc1
            hfull hbound)
  · intro pages
    exact collectLoopNrg_isSome_total_zero pages 1 []
  · intro pages total N hN h
    rcases h with hempty | hsum
    · apply collectLoopOffi_isSome_of_empty pages total N 1 [] (N - 1) (by omega)
      rw [show 1 + (N - 1) = N by omega]
      exact hempty
    · apply collectLoopOffi_isSome_of_sum pages total N 1 [] hN
      simpa using hsum
  · intro pages total ps hps hfin
    by_cases hzero : total = 0
    · subst hzero
      exact collectLoopOffi_mono pages 0 1 ((0 + ps - 1) / ps + 1) [] 1 (Nat.le_add_left 1 _)
        (collectLoopOffi_isSome_total_zero pages [])
    · by_cases hemp : ∃ NN, 1 ≤ NN ∧ NN ≤ (total + ps - 1) / ps + 1 ∧ pages NN = []
      · obtain ⟨NN, hN1, hN2, hN3⟩ := hemp
        apply collectLoopOffi_isSome_of_empty pages total ((total + ps - 1) / ps + 1) 1 []
          (NN - 1) (by omega)
        rw [show 1 + (NN - 1) = NN by omega]
        exact hN3
      · push_neg at hemp
        have hfull : ∀ k, 1 ≤ k → k < 1 + (total + ps - 1) / ps → (pages k).length = ps := by
          intro k hk1 hk2
          exact hfin k (k + 1) hk1 (by omega) (hemp (k + 1) (by omega) (by omega))
        have hc1 : 1 ≤ (total + ps - 1) / ps := by
          rw [Nat.le_div_iff_mul_le hps]
          omega
        have hbound : total ≤ ((total + ps - 1) / ps) * ps + ([] : List ℕ).length := by
          have h1 := Nat.div_add_mod (total + ps - 1) ps
          have h2 := Nat.mod_lt (total + ps - 1) hps
          have h3 : ((total + ps - 1) / ps) * ps = ps * ((total + ps - 1) / ps) := by ring
          simp only [List.length_nil, Nat.add_zero]
          omega
        exact collectLoopOffi_mono pages total ((total + ps - 1) / ps)
          ((total + ps - 1) / ps + 1) [] 1 (by omega)
          (collectLoopOffi_isSome_of_full pages total ps ((total + ps - 1) / ps) 1 [] hc1
            hfull hbound)
  · intro pages
    exact collectLoopOffi_isSome_total_zero pages []

/-- C3, witness: with two one-item pages followed by empty pages both
loops terminate within three iterations on a (wrong) reported total of 5,
and with always-full two-item pages both terminate within
`ceil(5 / 2) + 1` iterations. -/
theorem pagination_termination_witness :
    (collectAllNrg pagesEnd 5 3).isSome
    ∧ (collectAllNrg pagesFull 5 ((5 + 2 - 1) / 2 + 1)).isSome
    ∧ (collectAllOffi pagesEnd 5 3).isSome
    ∧ (collectAllOffi pagesFull 5 ((5 + 2 - 1) / 2 + 1)).isSome :=
  ⟨pagination_termination.1 pagesEnd 5 3 (by decide) (Or.inl (by decide)),
   pagination_termination.2.1 pagesFull 5 2 (by decide) (fun j k _ _ _ => rfl),
   pagination_termination.2.2.2.1 pagesEnd 5 3 (by decide) (Or.inl (by decide)),
   pagination_termination.2.2.2.2.1 pagesFull 5 2 (by decide) (fun j k _ _ _ => rfl)⟩

/-- C4: an analyze tool returns the cached artifact without recomputation
iff the artifact exists and its modification time is strictly greater than
the source's; and a second call after a first call made past the source's
modification time never recomputes and leaves the artifact (hence its
content) unchanged. -/
theorem summary_cache_freshness (Src Content : Type) (compute : Src → Content) :
    (∀ (now : ℕ) (st : CacheState Src Content),
        ((runAnalyzeTool compute now st).recomputed = false ↔
          ∃ amt ac, st.artifact = some (amt, ac) ∧ st.sourceMtime < amt))
    ∧ (∀ (now : ℕ) (st : CacheState Src Content) (amt : ℕ) (ac : Content),
        st.artifact = some (amt, ac) → st.sourceMtime < amt →
        runAnalyzeTool compute now st = ⟨ac, false, st⟩)
    ∧ (∀ (t1 t2 : ℕ) (st : CacheState Src Content), st.sourceMtime < t1 →
        (runAnalyzeTool compute t2 (runAnalyzeTool compute t1 st).state).recomputed = false
        ∧ (runAnalyzeTool compute t2 (runAnalyzeTool compute t1 st).state).state =
            (runAnalyzeTool compute t1 st).state) := by
  refine ⟨?_, ?_, ?_⟩
  · intro now st
    rcases hart : st.artifact with _ | ⟨amt, ac⟩
    · simp [runAnalyzeTool, hart]
    · by_cases hlt : st.sourceMtime < amt
      · constructor
        · intro _
          exact ⟨amt, ac, rfl, hlt⟩
        · intro _
          simp [runAnalyzeTool, hart, hlt]
      · simp only [runAnalyzeTool, hart, if_neg hlt]
        constructor
        · intro hfalse
          exact Bool.noConfusion hfalse
        · rintro ⟨amt', ac', heq, hlt'⟩
          obtain ⟨rfl, rfl⟩ : amt = amt' ∧ ac = ac' := by
            simpa [Prod.ext_iff] using heq
          exact absurd hlt' hlt
  · intro now st amt ac hart hlt
    simp [runAnalyzeTool, hart, hlt]
  · intro t1 t2 st h
    rcases hart : st.artifact with _ | ⟨amt, ac⟩
    · simp [runAnalyzeTool, hart, h]
    · by_cases hlt : st.sourceMtime < amt
      · simp [runAnalyzeTool, hart, hlt]
      · simp [runAnalyzeTool, hart, hlt, h]

/-- C4, witness: starting with no artifact and a source of mtime 0, a
first call at time 1 computes and writes; the second call at time 2
recomputes nothing and leaves the artifact as written. -/
theorem summary_cache_freshness_witness :
    (runAnalyzeTool (fun _ : Unit => "summary") 2
        (runAnalyzeTool (fun _ : Unit => "summary") 1
          (⟨0, (), none⟩ : CacheState Unit String)).state).recomputed = false
    ∧ (runAnalyzeTool (fun _ : Unit => "summary") 2
        (runAnalyzeTool (fun _ : Unit => "summary") 1
          (⟨0, (), none⟩ : CacheState Unit String)).state).state =
        (runAnalyzeTool (fun _ : Unit => "summary") 1
          (⟨0, (), none⟩ : CacheState Unit String)).state :=
  (summary_cache_freshness Unit String (fun _ => "summary")).2.2 1 2 ⟨0, (), none⟩ (by decide)

/-- C10: if the raw cache file for a (region, month) key exists, its
contents are returned verbatim — no fetch, no freshness check, cache
unchanged; and once a first call has written the cache, every later call
returns that first written rendering whatever the upstream now holds. -/
theorem raw_cache_staleness (render pretty : List Row → String) (emptyResult : String) :
    (∀ (upstream : List Row) (s : String),
        getOffiRentCached render pretty emptyResult upstream (some s) =
          ⟨s, false, some s⟩)
    ∧ (∀ u1 u2 : List Row, u1 ≠ [] →
        getOffiRentCached render pretty emptyResult u2
            (getOffiRentCached render pretty emptyResult u1 none).cache =
          ⟨pretty u1, false, some (pretty u1)⟩) := by
  constructor
  · intro upstream s
    rfl
  · intro u1 u2 h
    have hne : u1.isEmpty = false := by simpa using h
    simp [getOffiRentCached, hne]

/-- C10, witness: after a first miss on a one-record upstream, a later
call with a changed (empty) upstream still returns the first written
rendering and performs no fetch. -/
theorem raw_cache_staleness_witness :
    getOffiRentCached (fun _ => "compact") (fun _ => "indented") "empty" []
        ((getOffiRentCached (fun _ => "compact") (fun _ => "indented") "empty"
          [rowGood] none).cache) =
      ⟨"indented", false, some "indented"⟩ :=
  (raw_cache_staleness (fun _ => "compact") (fun _ => "indented") "empty").2
    [rowGood] [] (by decide)

end KrRealEstate
